import Mathlib

/-!
# Verification of the logo-placement engine

Shallow embedding of the placement-resolution and compositing engine of the
Photoshop-automation repository.  The Python modules embedded here are
`src/logo_positioner.py` (keypoint-table resolver, resize, background removal,
alpha merge, orchestrated placement), `src/logo_positioner_simple.py`
(heuristic resolver and fuzzy product-image search), `src/image_finder.py`
(exact-ladder plus fuzzy asset resolution), `src/utils.py` (back/front label
tests) and `src/main.py` (per-job orchestration with the derived front
variant).

Machine integers are modelled as `Nat`/`Int`; Python float arithmetic in
`resize_logo` and the alpha blend is modelled by exact rational arithmetic,
with `int(...)` truncation modelled as floor on non-negative values.
Python strings are modelled as Lean `String` (a list of characters), with the
Python `in`, `.upper()`, `.lower()`, `.strip()`, `.endswith` operations
re-implemented character-wise below so that everything is executable.
-/

/-- Python `a.startswith(b)` on character lists: `startsWithL pat s` is true
when `pat` is an initial segment of `s`. -/
def startsWithL : List Char → List Char → Bool
  | [], _ => true
  | _ :: _, [] => false
  | a :: as, b :: bs => a == b && startsWithL as bs

/-- Python `pat in s` (substring containment) on character lists. -/
def containsSub (pat : List Char) : List Char → Bool
  | [] => pat.isEmpty
  | c :: rest => startsWithL pat (c :: rest) || containsSub pat rest

/-- Python `s.endswith(pat)` on character lists. -/
def endsWithL (pat s : List Char) : Bool :=
  startsWithL pat.reverse s.reverse

/-- Python `a in b` on strings. -/
def pyIn (a b : String) : Bool := containsSub a.data b.data

/-- Python `s.upper()` (ASCII, which is all the vocabulary uses). -/
def pyUpper (s : String) : String := ⟨s.data.map Char.toUpper⟩

/-- Python `s.lower()` (ASCII). -/
def pyLower (s : String) : String := ⟨s.data.map Char.toLower⟩

/-- Python `s.strip()` (whitespace trim at both ends). -/
def pyStrip (s : String) : String :=
  ⟨((s.data.dropWhile Char.isWhitespace).reverse.dropWhile Char.isWhitespace).reverse⟩

/-! ## Location resolvers

`SimpleLogoPositioner.get_logo_position` (logo_positioner_simple.py, lines
24-52): heuristic classification of the label against the photo dimensions
only.  `LogoPositioner.get_logo_position` (logo_positioner.py, lines 46-108):
lookup of the label in a fixed 40-entry table of pose-landmark indices,
then lookup of that index in the detected keypoint mapping.
-/

/-- `SimpleLogoPositioner.get_logo_position(location_key, image_shape)`.
`image_shape[:2]` is `(h, w)`; Python `//` on non-negative ints is `Nat`
division.  An empty label is falsy in Python and returns `None`. -/
def simpleGetLogoPosition (locationKey : String) (h w : Nat) : Option (Nat × Nat) :=
  if locationKey = "" then none
  else
    let label := pyStrip (pyUpper locationKey)
    if pyIn "FRONT" label then some (w / 2, h / 3)
    else if pyIn "BACK" label then some (w / 2, h / 2)
    else if pyIn "LEFT" label then some (w / 4, h / 3)
    else if pyIn "RIGHT" label then some (3 * w / 4, h / 3)
    else if pyIn "CHEST" label then some (w / 2, h / 4)
    else if pyIn "SLEEVE" label then some (w / 2, h / 2)
    else some (w / 2, h / 3)

/-- The Boolean guard of the recognized branches of
`SimpleLogoPositioner.get_logo_position`: exactly the six substring tests the
code performs, on the normalized label. -/
def simpleRecognized (locationKey : String) : Bool :=
  let label := pyStrip (pyUpper locationKey)
  pyIn "FRONT" label || pyIn "BACK" label || pyIn "LEFT" label ||
  pyIn "RIGHT" label || pyIn "CHEST" label || pyIn "SLEEVE" label

/-- The `location_map` dictionary of `LogoPositioner.get_logo_position`
(logo_positioner.py, lines 48-92), verbatim including the mixed-case key
`Corner-Angled-Towel` and the space in `RIGHT THIGH-HIGH`. -/
def locationMap : List (String × Nat) :=
  [("FULL-BACK", 1),
   ("FULL-FRONT", 2),
   ("LEFT-BICEP", 3),
   ("RIGHT-BICEP", 4),
   ("LEFT-CHEST", 5),
   ("RIGHT-CHEST", 6),
   ("LEFT-COLLAR", 7),
   ("RIGHT-COLLAR", 8),
   ("LEFT-CUFF", 9),
   ("RIGHT-CUFF", 10),
   ("LEFT-HIP", 11),
   ("RIGHT-HIP", 12),
   ("LEFT-SLEEVE", 13),
   ("RIGHT-SLEEVE", 14),
   ("LEFT-THIGH-HIGH", 15),
   ("RIGHT THIGH-HIGH", 16),
   ("ON-POCKET", 17),
   ("BACK-YOKE", 18),
   ("FULL-BACK & FULL-FRONT", 19),
   ("LEFT-BICEP-RIGHT-BICEP", 20),
   ("LEFT-CHEST-LEFT-BICEP-RIGHT-BICEP", 21),
   ("LEFT-CHEST-RIGHT-BICEP", 22),
   ("LEFT-CHEST-RIGHT-SLEEVE", 23),
   ("LEFT-SLEEVE-RIGHT-SLEEVE", 24),
   ("RIGHT-CHEST-LEFT-BICEP", 25),
   ("RIGHT-CHEST-LEFT-SLEEVE", 26),
   ("RIGHT-CHEST-LFT-BICEP-RIGHT-BICEP", 27),
   ("FULL-FRONT-FULL-BACK", 28),
   ("LEFT-CHEST-FULL-BACK", 29),
   ("RIGHT-CHEST-FULL-BACK", 30),
   ("FRONT-CROWN", 31),
   ("CAP-BACK", 32),
   ("CAP-SIDE", 33),
   ("CAP-FRONT-SIDE", 34),
   ("LOWER-LEFT-CROWN", 35),
   ("LOWER-RIGHT-CROWN", 36),
   ("Corner-Angled-Towel", 37),
   ("FRONT_CENTER", 38),
   ("FRONT (ON BAG)", 39),
   ("ON POCKET (ON BAG)", 40)]

/-- `LogoPositioner.get_logo_position(keypoints, location_key)`: a `None`
label, an unmapped label, or a mapped landmark index absent from the keypoint
dictionary all yield `None`; otherwise the raw keypoint pixel is returned.
The keypoint dictionary is modelled as a partial map from landmark index to
pixel coordinate. -/
def getLogoPosition (keypoints : Nat → Option (Int × Int))
    (locationKey : Option String) : Option (Int × Int) :=
  match locationKey with
  | none => none
  | some k =>
    match locationMap.lookup (pyUpper k) with
    | none => none
    | some i => keypoints i

/-- The position stage of `LogoPositioner.place_logo_on_image`
(logo_positioner.py, lines 233-235): a falsy position raises
`Position not found`, aborting the job. -/
def placeLogoPositionStage (keypoints : Nat → Option (Int × Int))
    (locationKey : String) : Except String (Int × Int) :=
  match getLogoPosition keypoints (some locationKey) with
  | none => .error "Position not found"
  | some p => .ok p

/-! ## Asset resolver

`ImageFinder` (image_finder.py): exact-match ladder over four token joinings
and six extensions, then a fuzzy fallback that scores only the supported
files of the supplier folder itself (the glob is non-recursive) and keeps
only files with a strictly positive score.  The supplier folder is modelled
as `Option (List String)`: `none` when the folder is absent, otherwise the
list of file names it contains.
-/

/-- `ImageFinder.SUPPORTED_EXTENSIONS`. -/
def SUPPORTED_EXTENSIONS : List String :=
  [".png", ".jpg", ".jpeg", ".bmp", ".tiff", ".tif"]

/-- A file name matched by one of the `glob` patterns
`*{ext}` for the supported extensions. -/
def isSupportedFile (f : String) : Bool :=
  SUPPORTED_EXTENSIONS.any (fun e => endsWithL e.data f.data)

/-- The file enumeration of `ImageFinder._fuzzy_search` (lines 87-90): one
glob per supported extension over the supplier folder, results concatenated
per extension. -/
def globImages (files : List String) : List String :=
  SUPPORTED_EXTENSIONS.flatMap (fun e => files.filter (fun f => endsWithL e.data f.data))

/-- The per-file score of `ImageFinder._fuzzy_search` (lines 96-111): +2 when
the lowercased part id occurs in the lowercased file name, +2 for the color,
+3 bonus when their concatenation occurs. -/
def fuzzyScore (partId color f : String) : Nat :=
  let fl := pyLower f
  (if pyIn (pyLower partId) fl then 2 else 0) +
  (if pyIn (pyLower color) fl then 2 else 0) +
  (if pyIn (pyLower partId ++ pyLower color) fl then 3 else 0)

/-- Python stable descending sort followed by taking the head: the first
entry holding the maximum score (later entries replace only on strictly
greater score). -/
def pickBest : List (Nat × String) → Option String
  | [] => none
  | x :: xs => some (xs.foldl (fun best p => if best.1 < p.1 then p else best) x).2

/-- `ImageFinder._fuzzy_search` (lines 73-123): enumerate supported files,
return `None` when there are none, keep the positively scored ones, return
the best or `None` when every file scored zero. -/
def fuzzySearch (files : List String) (partId color : String) : Option String :=
  let allImages := globImages files
  if allImages.isEmpty then none
  else
    pickBest (allImages.filterMap (fun f =>
      let s := fuzzyScore partId color f
      if 0 < s then some (s, f) else none))

/-- The exact-match ladder of `ImageFinder.find_image` (lines 44-59): the
four joinings of the tokens, each tried across every supported extension,
first existing file wins. -/
def exactNames (partId color : String) : List String :=
  [partId ++ color, partId ++ "_" ++ color, partId ++ "-" ++ color,
   partId ++ " " ++ color].flatMap
    (fun v => SUPPORTED_EXTENSIONS.map (fun e => v ++ e))

/-- `ImageFinder.find_image` restricted to one supplier folder: `none` when
the folder is absent, otherwise the exact ladder followed by the fuzzy
fallback. -/
def findImage (supplierFolder : Option (List String)) (partId color : String) :
    Option String :=
  match supplierFolder with
  | none => none
  | some files =>
    match (exactNames partId color).find? (fun name => files.contains name) with
    | some f => some f
    | none => fuzzySearch files partId color

/-! ## Resize

`resize_logo` (identical in logo_positioner.py lines 113-126 and
logo_positioner_simple.py lines 54-67): aspect-preserving resize to a target
width.  `cv2.resize` returns an image of exactly the requested dimensions,
so only the shape matters; `int(h * (target_width / float(w)))` on
non-negative values is floor, i.e. `Nat` division. -/

/-- An image shape: `shape[:2]` is `(h, w)`. -/
structure Shape where
  h : Nat
  w : Nat
  deriving DecidableEq, Repr

/-- `resize_logo(logo_img, target_width)` on shapes: zero original width
returns the input unchanged; a zero target width makes `cv2.resize` raise,
which the handler turns into returning the input unchanged; otherwise width
becomes the target and height becomes `max(1, int(h * target_width / w))`. -/
def resizeLogo (s : Shape) (targetWidth : Nat) : Shape :=
  if s.w = 0 then s
  else if targetWidth = 0 then s
  else { h := max 1 (s.h * targetWidth / s.w), w := targetWidth }

/-! ## Compositor

`merge_logo_on_image` (identical in logo_positioner.py lines 149-203 and
logo_positioner_simple.py lines 83-137).  Pixels are BGR channel triples of
eight-bit values modelled as `Nat`; the decoration optionally carries a
fourth (alpha) channel.  Channel arithmetic happens in Python floats,
modelled exactly in `ℚ`, with the final `astype(np.uint8)` truncation
modelled as floor (all in-range values are non-negative).

For an anchor past the far edge of the base (`lx > bw` after the negative
crop) the Python slice `logo[:, :bw-lx]` has a negative bound; the
subsequent blend either raises a broadcast error, caught by the enclosing
handler which returns the base unchanged, or is an empty no-op — in both
cases the base is returned untouched, which is how that case is modelled.
-/

/-- A BGR pixel. -/
abbrev Pix := Nat × Nat × Nat

/-- A base image: dimensions plus pixel contents (values outside the
dimensions are irrelevant). -/
@[ext]
structure Img where
  h : Nat
  w : Nat
  pix : Nat → Nat → Pix

/-- A decoration image: BGR contents plus an optional alpha channel. -/
structure LogoImg where
  h : Nat
  w : Nat
  pix : Nat → Nat → Pix
  alphaC : Option (Nat → Nat → Nat)

/-- The alpha map of `merge_logo_on_image` (lines 157-164): a fourth channel
is divided by 255; otherwise pixels with every channel at least 250 are
background (alpha 0) and the rest foreground (alpha 1). -/
def alphaOf (l : LogoImg) (y x : Nat) : ℚ :=
  match l.alphaC with
  | some a => (a y x : ℚ) / 255
  | none =>
    let p := l.pix y x
    if 250 ≤ p.1 ∧ 250 ≤ p.2.1 ∧ 250 ≤ p.2.2 then 0 else 1

/-- One channel of the alpha blend (line 195), with the `uint8` cast as
floor. -/
def blendC (a : ℚ) (l b : Nat) : Nat := (⌊a * l + (1 - a) * b⌋).toNat

/-- The per-pixel alpha blend. -/
def blendPix (a : ℚ) (l b : Pix) : Pix :=
  (blendC a l.1 b.1, blendC a l.2.1 b.2.1, blendC a l.2.2 b.2.2)

/-- The crop taken from the decoration edge for a negative anchor
coordinate (lines 170-179). -/
def cropOfs (v : Int) : Nat := if v < 0 then (-v).toNat else 0

/-- The anchor coordinate clamped to zero (lines 174, 179). -/
def clampNN (v : Int) : Nat := if v < 0 then 0 else v.toNat

/-- `merge_logo_on_image(base_image, logo_img, position)`: crop the
decoration for negative anchor coordinates, crop the trailing excess at the
far edges, alpha-blend over the resulting rectangle in place, and return the
base buffer.  An anchor past the far edge leaves the base untouched (see the
module comment above). -/
def mergeLogoOnImage (base : Img) (logo : LogoImg) (pos : Int × Int) : Img :=
  if base.w < clampNN pos.1 ∨ base.h < clampNN pos.2 then base
  else
    { h := base.h
      w := base.w
      pix := fun y x =>
        if clampNN pos.2 ≤ y ∧
           y < clampNN pos.2 + min (logo.h - cropOfs pos.2) (base.h - clampNN pos.2) ∧
           clampNN pos.1 ≤ x ∧
           x < clampNN pos.1 + min (logo.w - cropOfs pos.1) (base.w - clampNN pos.1) then
          blendPix (alphaOf logo (y - clampNN pos.2 + cropOfs pos.2) (x - clampNN pos.1 + cropOfs pos.1))
            (logo.pix (y - clampNN pos.2 + cropOfs pos.2) (x - clampNN pos.1 + cropOfs pos.1))
            (base.pix y x)
        else base.pix y x }

/-! ## Feature extractor integration

`LogoPositioner.detect_human_keypoints` (logo_positioner.py, lines 21-41):
the external pose capability returns an optional landmark list; on success
every landmark is converted to pixels and entered into the dictionary under
its index — nothing is filtered. -/

/-- Python `int(q)`: truncation toward zero. -/
def pyInt (q : ℚ) : Int := if q < 0 then ⌈q⌉ else ⌊q⌋

/-- `detect_human_keypoints`, given the pose capability output (normalized
landmark coordinates) and the image dimensions `h × w`.  `none` models
`results.pose_landmarks` being absent. -/
def detectHumanKeypoints (poseLandmarks : Option (List (ℚ × ℚ)))
    (h w : Nat) : Option (List (Nat × (Int × Int))) :=
  match poseLandmarks with
  | none => none
  | some lms =>
    some (lms.enum.map (fun p => (p.1, (pyInt (p.2.1 * w), pyInt (p.2.2 * h)))))

/-! ## Orchestrator

`process_all_images` (src/main.py, lines 24-57) per job: check the supplier
name, run the primary placement, then — when `is_back_location` holds — run
a derived front placement whose failures are logged and swallowed, and
finally export the primary intermediate image.  Placement and export are
modelled as abstract deterministic effects `Job → Except String String` and
`String → Job → Except String Unit`. -/

/-- The fields of a job row the orchestrator branches on. -/
structure Job where
  supplierName : String
  location : String
  finalName : String
  deriving DecidableEq, Repr

/-- `is_back_location` (utils.py, lines 21-23). -/
def isBackLocation (location : String) : Bool :=
  ["BACK", "FULL-BACK"].any (fun k => pyIn (pyLower k) (pyLower location))

/-- The derived front job (main.py, lines 38-40): label rewritten to
`FULL-FRONT`, output name prefixed with `FRONT_`. -/
def frontJob (j : Job) : Job :=
  { j with location := "FULL-FRONT", finalName := "FRONT_" ++ j.finalName }

/-- The observable outcome of one job: the primary result (intermediate
path on success, error text on failure) and the secondary front run that was
attempted, if any, with its own result. -/
structure JobOutcome where
  primary : Except String String
  secondary : Option (Job × Except String String)
  deriving Repr

/-- One iteration of the job loop of `process_all_images`: missing supplier
name and primary placement failure abort the job before the secondary
branch; a back label triggers the derived front placement whose result is
recorded but never consulted; export failure fails the job afterwards. -/
def processOneJob (place : Job → Except String String)
    (exportF : String → Job → Except String Unit) (j : Job) : JobOutcome :=
  if j.supplierName = "" then
    { primary := .error "Missing Supplier Name", secondary := none }
  else
    match place j with
    | .error e => { primary := .error e, secondary := none }
    | .ok path =>
      let sec := if isBackLocation j.location then
          some (frontJob j, place (frontJob j)) else none
      match exportF path j with
      | .ok _ => { primary := .ok path, secondary := sec }
      | .error e => { primary := .error e, secondary := sec }

/-- The same iteration with the secondary branch removed, used to state that
the secondary run never affects the primary outcome. -/
def processOneJobNoSecondary (place : Job → Except String String)
    (exportF : String → Job → Except String Unit) (j : Job) : JobOutcome :=
  if j.supplierName = "" then
    { primary := .error "Missing Supplier Name", secondary := none }
  else
    match place j with
    | .error e => { primary := .error e, secondary := none }
    | .ok path =>
      match exportF path j with
      | .ok _ => { primary := .ok path, secondary := none }
      | .error e => { primary := .error e, secondary := none }

/-! ## Fixtures for the concrete witnesses and counterexamples -/

/-- A keypoint dictionary with exactly the pose-model indices 0..32. -/
def kpFullPose : Nat → Option (Int × Int) :=
  fun i => if i ≤ 32 then some (3, 4) else none

/-- A keypoint dictionary whose shoulders (pose indices 11 and 12) sit at
(800, 500) and (400, 500) — shoulder span 400 centered at (600, 500) on a
1200 × 1800 photo — and whose other pose landmarks, including index 5, sit
at (50, 50). -/
def kpShoulders : Nat → Option (Int × Int) :=
  fun i =>
    if i = 11 then some (800, 500)
    else if i = 12 then some (400, 500)
    else if i ≤ 32 then some (50, 50)
    else none

/-- A keypoint dictionary defined exactly below index 33. -/
def kpBelow33 : Nat → Option (Int × Int) :=
  fun i => if i < 33 then some (0, 0) else none

/-- The vocabulary labels whose `location_map` entry is 33 or greater. -/
def highIndexLabels : List String :=
  ["CAP-SIDE", "CAP-FRONT-SIDE", "LOWER-LEFT-CROWN", "LOWER-RIGHT-CROWN",
   "Corner-Angled-Towel", "FRONT_CENTER", "FRONT (ON BAG)", "ON POCKET (ON BAG)"]

/-- A 2 × 2 base photo. -/
def demoBase : Img := ⟨2, 2, fun _ _ => (10, 20, 30)⟩

/-- A 1 × 1 decoration with a fully opaque alpha channel. -/
def demoLogo : LogoImg := ⟨1, 1, fun _ _ => (1, 2, 3), some (fun _ _ => 255)⟩

/-- A placement effect that always succeeds. -/
def demoPlace : Job → Except String String := fun _ => .ok "out.png"

/-- An export effect that always succeeds. -/
def demoExport : String → Job → Except String Unit := fun _ _ => .ok ()

/-- A job with a back-zone label. -/
def demoJob : Job := ⟨"Acme", "FULL-BACK", "img1.psd"⟩

/-! # Theorems -/

/-! ## C1 — totality of the location resolver -/

/-- C1, counterexample.  The claim says resolving returns some coordinate
for every placement label and never returns no result; but the heuristic
resolver returns `None` for the empty label (`if not location_key`), so the
resolver is not total over all labels. -/
theorem simpleGetLogoPosition_empty_eq_none :
    simpleGetLogoPosition "" 1800 1200 = none := by decide

/-- C1, amended.  For every non-empty placement label — recognized or not —
and every photo size, the heuristic resolver
`SimpleLogoPositioner.get_logo_position` returns some pixel coordinate; only
the empty (falsy) label yields no result. -/
theorem simpleGetLogoPosition_total_of_nonempty (label : String) (h w : Nat)
    (hne : label ≠ "") : (simpleGetLogoPosition label h w).isSome = true := by
  unfold simpleGetLogoPosition
  rw [if_neg hne]
  dsimp only
  split_ifs <;> rfl

/-- C1, witness at the label LEFT-CHEST on a 1200 × 1800 photo. -/
theorem simpleGetLogoPosition_total_witness :
    "LEFT-CHEST" ≠ "" ∧ (simpleGetLogoPosition "LEFT-CHEST" 1800 1200).isSome = true :=
  ⟨by decide, simpleGetLogoPosition_total_of_nonempty "LEFT-CHEST" 1800 1200 (by decide)⟩

/-! ## C5 — the default coordinate for unrecognized labels -/

/-- C5, counterexample.  The claim says an unrecognized label resolves to
exactly (w/2, h/3) for any keypoint input; but with a keypoint mapping
present, the keypoint-based resolver `LogoPositioner.get_logo_position`
returns `None` for UNKNOWN-ZONE-XYZ — not the default coordinate
(600, 600) of a 1200 × 1800 photo. -/
theorem getLogoPosition_unknown_label_none :
    getLogoPosition kpFullPose (some "UNKNOWN-ZONE-XYZ") = none ∧
    (none : Option (Int × Int)) ≠ some (1200 / 2, 1800 / 3) := by
  exact ⟨by decide, by decide⟩

/-- C5, amended.  With no keypoints — the heuristic resolver — every
non-empty label recognized by none of the six substring classes resolves to
exactly (w/2, h/3) (floor division); with keypoints present, the
keypoint-based resolver instead returns no result for unrecognized labels. -/
theorem simpleGetLogoPosition_default_of_unrecognized (label : String) (h w : Nat)
    (hne : label ≠ "") (hrec : simpleRecognized label = false) :
    simpleGetLogoPosition label h w = some (w / 2, h / 3) := by
  unfold simpleRecognized at hrec
  simp only [Bool.or_eq_false_iff] at hrec
  obtain ⟨⟨⟨⟨⟨h1, h2⟩, h3⟩, h4⟩, h5⟩, h6⟩ := hrec
  unfold simpleGetLogoPosition
  rw [if_neg hne]
  simp only [h1, h2, h3, h4, h5, h6, Bool.false_eq_true, if_false]

/-- C5, witness at the label UNKNOWN-ZONE-XYZ on a 1200 × 1800 photo. -/
theorem simpleGetLogoPosition_default_witness :
    "UNKNOWN-ZONE-XYZ" ≠ "" ∧ simpleRecognized "UNKNOWN-ZONE-XYZ" = false ∧
    simpleGetLogoPosition "UNKNOWN-ZONE-XYZ" 1800 1200 = some (600, 600) :=
  ⟨by decide, by decide,
    simpleGetLogoPosition_default_of_unrecognized "UNKNOWN-ZONE-XYZ" 1800 1200
      (by decide) (by decide)⟩

/-! ## C6 — what LEFT-CHEST resolves to in keypoint mode -/

/-- C6, counterexample.  With shoulders spanning 400px centered at
(600, 500), the claim expects the LEFT-CHEST anchor ≈ (528, 588); the code
instead returns the raw pixel of pose-landmark index 5 — here (50, 50),
hundreds of pixels away — because `location_map` sends LEFT-CHEST to index 5
and no shoulder-offset computation exists. -/
theorem getLogoPosition_left_chest_raw_landmark :
    getLogoPosition kpShoulders (some "LEFT-CHEST") = some (50, 50) ∧
    400 < |(50 : Int) - 528| ∧ 400 < |(50 : Int) - 588| := by
  refine ⟨by decide, by decide, by decide⟩

/-- C6, amended.  In keypoint mode, resolving LEFT-CHEST returns exactly the
detector's coordinate for pose-landmark index 5, whatever the shoulder
geometry. -/
theorem getLogoPosition_left_chest_eq_landmark5 (kp : Nat → Option (Int × Int)) :
    getLogoPosition kp (some "LEFT-CHEST") = kp 5 := rfl

/-! ## C10 — labels mapped to landmark indices the pose model never has -/

/-- The position stage errors whenever the resolver returns nothing. -/
theorem placeLogoPositionStage_error_of_none (kp : Nat → Option (Int × Int))
    (L : String) (h1 : getLogoPosition kp (some L) = none) :
    placeLogoPositionStage kp L = .error "Position not found" := by
  unfold placeLogoPositionStage
  rw [h1]

/-- C10.  For every keypoint mapping whose keys are the pose-model indices
0..32, each vocabulary label whose `location_map` entry is 33 or greater
resolves to no position, so the keypoint-based pipeline aborts with the
`Position not found` error for these labels. -/
theorem placeLogoPositionStage_high_index_error (kp : Nat → Option (Int × Int))
    (hkp : ∀ i, 33 ≤ i → kp i = none) (L : String) (hL : L ∈ highIndexLabels) :
    placeLogoPositionStage kp L = .error "Position not found" := by
  simp only [highIndexLabels, List.mem_cons, List.not_mem_nil, or_false] at hL
  rcases hL with rfl | rfl | rfl | rfl | rfl | rfl | rfl | rfl
  · exact placeLogoPositionStage_error_of_none kp _ (hkp 33 (by norm_num))
  · exact placeLogoPositionStage_error_of_none kp _ (hkp 34 (by norm_num))
  · exact placeLogoPositionStage_error_of_none kp _ (hkp 35 (by norm_num))
  · exact placeLogoPositionStage_error_of_none kp _ (hkp 36 (by norm_num))
  · exact placeLogoPositionStage_error_of_none kp _ rfl
  · exact placeLogoPositionStage_error_of_none kp _ (hkp 38 (by norm_num))
  · exact placeLogoPositionStage_error_of_none kp _ (hkp 39 (by norm_num))
  · exact placeLogoPositionStage_error_of_none kp _ (hkp 40 (by norm_num))

/-- C10, witness at the label CAP-SIDE with the 0..32 keypoint mapping. -/
theorem placeLogoPositionStage_high_index_witness :
    (∀ i, 33 ≤ i → kpBelow33 i = none) ∧ "CAP-SIDE" ∈ highIndexLabels ∧
    placeLogoPositionStage kpBelow33 "CAP-SIDE" = .error "Position not found" := by
  have hk : ∀ i, 33 ≤ i → kpBelow33 i = none := by
    intro i hi
    unfold kpBelow33
    rw [if_neg (by omega)]
  exact ⟨hk, by decide, placeLogoPositionStage_high_index_error kpBelow33 hk "CAP-SIDE" (by decide)⟩

/-! ## C2 — failure conditions of the asset resolver -/

/-- C2, counterexample.  The claim says the resolver fails only when the
supplier directory is absent or holds zero supported files; but a directory
holding one supported file that matches neither token scores zero in the
fuzzy fallback and is discarded, so the resolver returns nothing. -/
theorem findImage_zero_score_none :
    findImage (some ["zzz.png"]) "ABC123" "Red" = none ∧
    isSupportedFile "zzz.png" = true := ⟨by decide, by decide⟩

/-- `pickBest` of a non-empty score list always yields a file. -/
theorem pickBest_isSome {l : List (Nat × String)} (h : l ≠ []) :
    (pickBest l).isSome = true := by
  cases l with
  | nil => exact absurd rfl h
  | cons x xs => rfl

/-- C2, amended.  The resolver returns some file whenever the supplier
directory holds a supported file matching at least one of the tokens
(positive fuzzy score); it fails not only when the directory is absent or
holds zero supported files, but also when every supported file matches
neither token. -/
theorem findImage_isSome_of_token_match (files : List String)
    (partId color f : String) (hf : f ∈ files) (hsup : isSupportedFile f = true)
    (hscore : 0 < fuzzyScore partId color f) :
    (findImage (some files) partId color).isSome = true := by
  rw [show findImage (some files) partId color =
      (match (exactNames partId color).find? (fun name => files.contains name) with
        | some g => some g
        | none => fuzzySearch files partId color) from rfl]
  cases hfind : (exactNames partId color).find? (fun name => files.contains name) with
  | some g => rfl
  | none =>
    show (fuzzySearch files partId color).isSome = true
    unfold fuzzySearch
    have hmem : f ∈ globImages files := by
      unfold isSupportedFile at hsup
      rcases List.any_eq_true.mp hsup with ⟨e, he, hee⟩
      unfold globImages
      exact List.mem_flatMap.mpr ⟨e, he, List.mem_filter.mpr ⟨hf, hee⟩⟩
    have hne : ¬((globImages files).isEmpty = true) := by
      simp only [List.isEmpty_iff]
      exact List.ne_nil_of_mem hmem
    rw [if_neg hne]
    apply pickBest_isSome
    have hmemf : (fuzzyScore partId color f, f) ∈ (globImages files).filterMap
        (fun g => let s := fuzzyScore partId color g;
          if 0 < s then some (s, g) else none) :=
      List.mem_filterMap.mpr ⟨f, hmem, by dsimp only; rw [if_pos hscore]⟩
    exact List.ne_nil_of_mem hmemf

/-- C2, witness: a directory holding only ABC123_Red_v2.png, requested with
tokens ABC123 and Red. -/
theorem findImage_isSome_witness :
    "ABC123_Red_v2.png" ∈ ["ABC123_Red_v2.png"] ∧
    isSupportedFile "ABC123_Red_v2.png" = true ∧
    0 < fuzzyScore "ABC123" "Red" "ABC123_Red_v2.png" ∧
    (findImage (some ["ABC123_Red_v2.png"]) "ABC123" "Red").isSome = true :=
  ⟨by decide, by decide, by decide,
    findImage_isSome_of_token_match ["ABC123_Red_v2.png"] "ABC123" "Red"
      "ABC123_Red_v2.png" (by decide) (by decide) (by decide)⟩

/-! ## C3 — resize dimensions -/

/-- C3, counterexample.  The claim says the new height is
round(W × h / w); for a 2-wide, 5-high decoration resized to width 3 the
code computes height `int(5 * 1.5) = 7`, while round(7.5) = 8: the code
truncates rather than rounds. -/
theorem resizeLogo_truncates_not_rounds :
    (resizeLogo ⟨5, 2⟩ 3).h = 7 ∧ round ((3 * 5 : ℚ) / 2) = 8 ∧ (7 : Int) ≠ 8 :=
  ⟨rfl, by rw [round_eq]; norm_num, by decide⟩

/-- C3, amended.  For positive original width and positive target width, the
resized width is exactly the target and the new height is
max(1, ⌊W × h / w⌋) — truncation with a floor of one pixel, not rounding —
which still lies within one pixel of the exact scaled height; a zero
original width returns the input unchanged. -/
theorem resizeLogo_dims_spec (s : Shape) (W : Nat) (hW : 0 < W) (hw : 0 < s.w) :
    (resizeLogo s W).w = W ∧
    (resizeLogo s W).h = max 1 (s.h * W / s.w) ∧
    |((resizeLogo s W).h : ℚ) - ((s.h : ℚ) * (W : ℚ)) / (s.w : ℚ)| ≤ 1 ∧
    (∀ t : Shape, t.w = 0 → resizeLogo t W = t) := by
  have hw0 : s.w ≠ 0 := Nat.pos_iff_ne_zero.mp hw
  have hW0 : W ≠ 0 := Nat.pos_iff_ne_zero.mp hW
  refine ⟨?_, ?_, ?_, ?_⟩
  · rw [resizeLogo, if_neg hw0, if_neg hW0]
  · rw [resizeLogo, if_neg hw0, if_neg hW0]
  · rw [resizeLogo, if_neg hw0, if_neg hW0]
    have hx0 : (0 : ℚ) ≤ ((s.h : ℚ) * (W : ℚ)) / (s.w : ℚ) :=
      div_nonneg (mul_nonneg (Nat.cast_nonneg _) (Nat.cast_nonneg _)) (Nat.cast_nonneg _)
    have key : s.h * W / s.w = ⌊((s.h : ℚ) * (W : ℚ)) / (s.w : ℚ)⌋₊ := by
      rw [← Nat.cast_mul, Nat.floor_div_nat, Nat.floor_natCast]
    set x : ℚ := ((s.h : ℚ) * (W : ℚ)) / (s.w : ℚ) with hxdef
    rcases Nat.eq_zero_or_pos (s.h * W / s.w) with hz | hp
    · have h0 : ⌊x⌋₊ = 0 := by rw [← key]; exact hz
      have hx1 : x < 1 := Nat.floor_eq_zero.mp h0
      rw [hz]
      have hmax : max 1 0 = 1 := rfl
      rw [hmax, abs_le]
      push_cast
      constructor <;> linarith
    · have hmax : max 1 (s.h * W / s.w) = s.h * W / s.w := Nat.max_eq_right hp
      rw [hmax]
      have hle : ((s.h * W / s.w : ℕ) : ℚ) ≤ x := by
        rw [key]
        exact Nat.floor_le hx0
      have hlt : x < ((s.h * W / s.w : ℕ) : ℚ) + 1 := by
        rw [key]
        exact Nat.lt_floor_add_one x
      rw [abs_le]
      exact ⟨by linarith, by linarith⟩
  · intro t ht
    rw [resizeLogo, if_pos ht]

/-- C3, witness: the 2-wide, 5-high decoration resized to width 3. -/
theorem resizeLogo_dims_witness :
    0 < 3 ∧ 0 < (Shape.mk 5 2).w ∧ (resizeLogo ⟨5, 2⟩ 3).w = 3 :=
  ⟨by decide, by decide, (resizeLogo_dims_spec ⟨5, 2⟩ 3 (by decide) (by decide)).1⟩

/-! ## C4 — the blend preserves the base dimensions -/

/-- The merge never changes the height of the base buffer. -/
theorem mergeLogoOnImage_height (b : Img) (l : LogoImg) (p : Int × Int) :
    (mergeLogoOnImage b l p).h = b.h := by
  unfold mergeLogoOnImage
  split <;> rfl

/-- The merge never changes the width of the base buffer. -/
theorem mergeLogoOnImage_width (b : Img) (l : LogoImg) (p : Int × Int) :
    (mergeLogoOnImage b l p).w = b.w := by
  unfold mergeLogoOnImage
  split <;> rfl

/-- C4.  For every anchor — negative or out of bounds — every decoration and
every base image, the blend returns an image of exactly the base photo's
dimensions: the blend writes into the base buffer and returns it. -/
theorem mergeLogoOnImage_preserves_dims (base : Img) (logo : LogoImg) (pos : Int × Int) :
    (mergeLogoOnImage base logo pos).h = base.h ∧
    (mergeLogoOnImage base logo pos).w = base.w :=
  ⟨mergeLogoOnImage_height base logo pos, mergeLogoOnImage_width base logo pos⟩

/-! ## C7 — blending an opaque decoration is idempotent -/

/-- At alpha one a blended channel is exactly the decoration channel. -/
theorem blendC_one (l b : Nat) : blendC 1 l b = l := by
  unfold blendC
  norm_num

/-- At alpha one a blended pixel is exactly the decoration pixel. -/
theorem blendPix_one (l b : Pix) : blendPix 1 l b = l := by
  unfold blendPix
  rw [blendC_one, blendC_one, blendC_one]

/-- The merge at an anchor past the far edge leaves the base untouched. -/
theorem mergeLogoOnImage_far_edge (b : Img) (l : LogoImg) (p : Int × Int)
    (hc : b.w < clampNN p.1 ∨ b.h < clampNN p.2) : mergeLogoOnImage b l p = b := by
  unfold mergeLogoOnImage
  rw [if_pos hc]

/-- The explicit pixel form of the merge for an in-range anchor. -/
theorem mergeLogoOnImage_in_range (b : Img) (l : LogoImg) (p : Int × Int)
    (hc : ¬(b.w < clampNN p.1 ∨ b.h < clampNN p.2)) :
    mergeLogoOnImage b l p =
      ⟨b.h, b.w, fun y x =>
        if clampNN p.2 ≤ y ∧
           y < clampNN p.2 + min (l.h - cropOfs p.2) (b.h - clampNN p.2) ∧
           clampNN p.1 ≤ x ∧
           x < clampNN p.1 + min (l.w - cropOfs p.1) (b.w - clampNN p.1) then
          blendPix (alphaOf l (y - clampNN p.2 + cropOfs p.2) (x - clampNN p.1 + cropOfs p.1))
            (l.pix (y - clampNN p.2 + cropOfs p.2) (x - clampNN p.1 + cropOfs p.1))
            (b.pix y x)
        else b.pix y x⟩ := by
  unfold mergeLogoOnImage
  rw [if_neg hc]

/-- C7.  For every base image, every anchor and every fully opaque
decoration (alpha one at every pixel), blending twice yields exactly the
pixels of blending once: the blend overwrites the covered region rather
than accumulating. -/
theorem mergeLogoOnImage_opaque_idempotent (base : Img) (logo : LogoImg)
    (pos : Int × Int) (ha : ∀ y x, alphaOf logo y x = 1) :
    mergeLogoOnImage (mergeLogoOnImage base logo pos) logo pos =
      mergeLogoOnImage base logo pos := by
  by_cases hc : base.w < clampNN pos.1 ∨ base.h < clampNN pos.2
  · rw [mergeLogoOnImage_far_edge base logo pos hc]
    exact mergeLogoOnImage_far_edge base logo pos hc
  · have hc2 : ¬((mergeLogoOnImage base logo pos).w < clampNN pos.1 ∨
        (mergeLogoOnImage base logo pos).h < clampNN pos.2) := by
      rw [mergeLogoOnImage_width, mergeLogoOnImage_height]
      exact hc
    rw [mergeLogoOnImage_in_range (mergeLogoOnImage base logo pos) logo pos hc2]
    rw [mergeLogoOnImage_in_range base logo pos hc]
    refine Img.ext rfl rfl ?_
    funext y x
    dsimp only
    split
    · simp only [ha, blendPix_one]
    · rfl

/-- C7, witness: a 1 × 1 fully opaque decoration blended twice at the origin
of a 2 × 2 base. -/
theorem mergeLogoOnImage_opaque_idempotent_witness :
    (∀ y x, alphaOf demoLogo y x = 1) ∧
    mergeLogoOnImage (mergeLogoOnImage demoBase demoLogo (0, 0)) demoLogo (0, 0) =
      mergeLogoOnImage demoBase demoLogo (0, 0) := by
  have hA : ∀ y x, alphaOf demoLogo y x = 1 := by
    intro y x
    unfold alphaOf demoLogo
    norm_num
  exact ⟨hA, mergeLogoOnImage_opaque_idempotent demoBase demoLogo (0, 0) hA⟩

/-! ## C8 — the derived front run never affects the primary job -/

/-- C8.  The primary outcome of a job — placement result and export — is
identical with and without the secondary branch; and whenever the label
denotes a back zone and the job reaches the secondary branch (supplier
present, primary placement succeeded), the orchestrator runs exactly one
derived placement with the label rewritten to FULL-FRONT and the output
name prefixed with FRONT_, recording but never consulting its result, so
secondary failures are swallowed. -/
theorem processOneJob_secondary_isolated (place : Job → Except String String)
    (exportF : String → Job → Except String Unit) (j : Job) :
    (processOneJob place exportF j).primary =
      (processOneJobNoSecondary place exportF j).primary ∧
    (isBackLocation j.location = true → j.supplierName ≠ "" →
      ∀ path, place j = .ok path →
        (processOneJob place exportF j).secondary =
          some (frontJob j, place (frontJob j)) ∧
        (frontJob j).location = "FULL-FRONT" ∧
        (frontJob j).finalName = "FRONT_" ++ j.finalName) := by
  constructor
  · unfold processOneJob processOneJobNoSecondary
    by_cases hs : j.supplierName = ""
    · rw [if_pos hs, if_pos hs]
    · rw [if_neg hs, if_neg hs]
      cases hp : place j with
      | error e => rfl
      | ok path =>
        dsimp only
        cases he : exportF path j <;> rfl
  · intro hback hs path hp
    refine ⟨?_, rfl, rfl⟩
    unfold processOneJob
    rw [if_neg hs, hp]
    dsimp only
    rw [if_pos hback]
    cases he : exportF path j <;> rfl

/-- C8, witness: a FULL-BACK job with succeeding placement and export. -/
theorem processOneJob_secondary_isolated_witness :
    isBackLocation demoJob.location = true ∧ demoJob.supplierName ≠ "" ∧
    demoPlace demoJob = .ok "out.png" ∧
    (processOneJob demoPlace demoExport demoJob).secondary =
      some (frontJob demoJob, demoPlace (frontJob demoJob)) := by
  refine ⟨by decide, by decide, rfl, ?_⟩
  exact ((processOneJob_secondary_isolated demoPlace demoExport demoJob).2
    (by decide) (by decide) "out.png" rfl).1

/-! ## C9 — keypoint sets are complete on success -/

/-- C9.  Whenever the pose capability yields a landmark list, the returned
keypoint dictionary holds an entry for every landmark index the model
defines — its keys are exactly 0, …, n−1 — and no entry is dropped. -/
theorem detectHumanKeypoints_complete (lms : List (ℚ × ℚ)) (h w : Nat) :
    ∃ kp, detectHumanKeypoints (some lms) h w = some kp ∧
      kp.map Prod.fst = List.range lms.length := by
  refine ⟨_, rfl, ?_⟩
  rw [List.map_map]
  have heq : (Prod.fst ∘ fun p : Nat × (ℚ × ℚ) =>
      (p.1, (pyInt (p.2.1 * w), pyInt (p.2.2 * h)))) = Prod.fst := rfl
  rw [heq, List.enum_map_fst]
